import Mathlib

/-!
Verification of the SEO data pipeline (`pipeline/` package).

The development shallowly embeds the parts of the code the claims are about:

* `merge_dataframes`        — `sheets_manager._merge_dataframes` (the upsert merge),
* `update_sheet_with_dataframe` — `sheets_manager.update_sheet_with_dataframe`,
* `prepare_dataframe`       — `data_pipeline._prepare_dataframe` (the normalizer),
* `fetch_daily_gsc_data` / `fetch_daily_ga4_data` — the two source connectors,
* `build_summary_text`      — `notifications._build_summary_text`,
* `run_pipeline`            — `data_pipeline.run_pipeline` (the orchestrator).

A pandas `DataFrame` is modelled as a `Table`: a list of column names plus a
list of rows, each row a positional list of `Value` cells.  Conventions of the
embedding, noted where they matter:

* `Value.str` holds a general string that is *not* an ISO-8601 date;
  `Value.isoStr d` holds the string `isoDate d` (the ISO rendering of `d`).
  The two constructors are compared as strings by the sort order below, which
  matches how pandas compares the actual string cells.
* `Value.null` models a missing cell (`None`/`NaN`).
* numbers are `Value.int`/`Value.float` (rationals stand in for floats; the
  pipeline only moves numbers around, it never does float arithmetic whose
  rounding could be observed beyond the `round` calls modelled below).
* external effects (the gspread client, the Google API clients, the network)
  are modelled as explicit parameters: availability flags and `Except`-valued
  API results injected into the functions that the source obtains via imports
  and network calls.
-/

namespace SeoPipeline

/-- Calendar date carried by `datetime.date` values in the source. -/
structure Date where
  year : Nat
  month : Nat
  day : Nat
deriving DecidableEq

/-- Left-pad the decimal rendering of `n` with zeros to width `w`. -/
def natPad (w : Nat) (n : Nat) : String :=
  let s := toString n
  String.mk (List.replicate (w - s.length) '0') ++ s

/-- ISO-8601 rendering `YYYY-MM-DD` of a date, as produced by
`datetime.date.isoformat` / `.dt.date.astype(str)` in the source. -/
def isoDate (d : Date) : String :=
  natPad 4 d.year ++ "-" ++ natPad 2 d.month ++ "-" ++ natPad 2 d.day

/-- Cell value of a table.  See the module docstring for the conventions. -/
inductive Value where
  | null : Value
  | int : Int → Value
  | float : Rat → Value
  | str : String → Value
  | isoStr : Date → Value
  | date : Date → Value
deriving DecidableEq

/-- A pandas `DataFrame`: named columns plus positional rows. -/
structure Table where
  cols : List String
  rows : List (List Value)
deriving DecidableEq

/-- Value of column `c` in a row, reading columns and cells positionally;
missing columns (or cells beyond the row's length) read as `null`, matching
the `NaN` produced by pandas alignment. -/
def rowVal : List String → List Value → String → Value
  | [], _, _ => .null
  | _ :: _, [], _ => .null
  | c :: cs, v :: vs, target => if c = target then v else rowVal cs vs target

/-- Key of a row under `keycols`, as used by `drop_duplicates(subset=...)`
and `sort_values(...)` in `_merge_dataframes`. -/
def keyOf (cols keycols : List String) (r : List Value) : List Value :=
  keycols.map (rowVal cols r)

/-- Code points of a string, used to compare strings lexicographically the
way Python compares them (by Unicode code point). -/
def strEnc (s : String) : List Nat :=
  s.data.map Char.toNat

/-- Encoding target used to compare cell values: rank, numeric part, string
part, date part, ordered lexicographically. -/
abbrev EncV := Nat ×ₗ Rat ×ₗ List Nat ×ₗ Nat ×ₗ Nat ×ₗ Nat

/-- Helper building one encoded value. -/
def mkEnc (rank : Nat) (q : Rat) (s : List Nat) (y m d : Nat) : EncV :=
  toLex (rank, toLex (q, toLex (s, toLex (y, toLex (m, d)))))

/-- Comparison encoding of a cell value.  Numbers (`int`/`float`) compare
numerically with each other, strings (`str`/`isoStr`) compare as strings —
both as pandas compares the underlying cells — and `null` (`NaN`) ranks last,
matching the default `na_position="last"` of `sort_values`. -/
def Value.enc : Value → EncV
  | .int n => mkEnc 0 (n : Rat) [] 0 0 0
  | .float q => mkEnc 0 q [] 0 0 0
  | .str s => mkEnc 1 0 (strEnc s) 0 0 0
  | .isoStr d => mkEnc 1 0 (strEnc (isoDate d)) 0 0 0
  | .date d => mkEnc 2 0 [] d.year d.month d.day
  | .null => mkEnc 3 0 [] 0 0 0

/-- Ascending-by-key row order used by `sort_values(key_columns)`. -/
def rowLe (cols keycols : List String) (a b : List Value) : Prop :=
  (keyOf cols keycols a).map Value.enc ≤ (keyOf cols keycols b).map Value.enc

instance rowLeDecidable (cols keycols : List String) :
    DecidableRel (rowLe cols keycols) :=
  fun a b => inferInstanceAs (Decidable (_ ≤ _))

instance rowLeTotal (cols keycols : List String) :
    IsTotal (List Value) (rowLe cols keycols) :=
  ⟨fun a b => le_total ((keyOf cols keycols a).map Value.enc) _⟩

instance rowLeTrans (cols keycols : List String) :
    IsTrans (List Value) (rowLe cols keycols) :=
  ⟨fun _ _ _ h1 h2 => le_trans h1 h2⟩

/-- Embedding of `drop_duplicates(subset=key, keep="last")`: an element is
kept iff no later element has the same key. -/
def dropDupLast {α K : Type} [DecidableEq K] (key : α → K) : List α → List α
  | [] => []
  | x :: xs =>
    if xs.any (fun y => key y = key x) then dropDupLast key xs
    else x :: dropDupLast key xs

/-- Step `existing[col] = None` for key columns missing from the existing
frame (lines 82–84 of `sheets_manager.py`). -/
def padKeyCols : Table → List String → Table
  | t, [] => t
  | t, c :: cs =>
    if c ∈ t.cols then padKeyCols t cs
    else padKeyCols ⟨t.cols ++ [c], t.rows.map (fun r => r ++ [Value.null])⟩ cs

/-- Embedding of `pd.concat([existing, new_data], ignore_index=True)`:
columns are the union in order of first appearance and every row is aligned
to them, absent cells becoming `null` (`NaN`). -/
def concatTables (a b : Table) : Table :=
  let cols := a.cols ++ b.cols.filter (fun c => decide (c ∉ a.cols))
  ⟨cols,
    a.rows.map (fun r => cols.map (rowVal a.cols r)) ++
      b.rows.map (fun r => cols.map (rowVal b.cols r))⟩

/-- Embedding of `sheets_manager._merge_dataframes`: pad missing key columns
of `existing` with `None`, concatenate existing then new, drop duplicate keys
keeping the last occurrence, and sort ascending by the key columns
(`reset_index` has no observable effect in this model). -/
def merge_dataframes (existing new_data : Table) (key_columns : List String) :
    Table :=
  let existing' := padKeyCols existing key_columns
  let combined := concatTables existing' new_data
  let deduped := dropDupLast (keyOf combined.cols key_columns) combined.rows
  ⟨combined.cols, List.insertionSort (rowLe combined.cols key_columns) deduped⟩

/-! ### Properties of the deduplication step -/

section DropDup

variable {α K : Type} [DecidableEq K] (key : α → K)

theorem mem_of_mem_dropDupLast {x : α} :
    ∀ {l : List α}, x ∈ dropDupLast key l → x ∈ l := by
  intro l
  induction l with
  | nil => intro h; simp [dropDupLast] at h
  | cons a as ih =>
    intro h
    rw [dropDupLast] at h
    split at h
    · exact List.mem_cons_of_mem _ (ih h)
    · rcases List.mem_cons.mp h with rfl | h
      · exact List.mem_cons_self _ _
      · exact List.mem_cons_of_mem _ (ih h)

theorem mem_map_key_dropDupLast {k : K} :
    ∀ {l : List α}, k ∈ (dropDupLast key l).map key ↔ k ∈ l.map key := by
  intro l
  induction l with
  | nil => simp [dropDupLast]
  | cons a as ih =>
    rw [dropDupLast]
    split
    · rename_i hc
      simp only [List.map_cons, List.mem_cons]
      rw [ih]
      constructor
      · exact Or.inr
      · rintro (rfl | h)
        · rcases List.any_eq_true.mp hc with ⟨y, hy, he⟩
          exact List.mem_map.mpr ⟨y, hy, by simpa using he⟩
        · exact h
    · simp only [List.map_cons, List.mem_cons]
      rw [ih]

theorem nodup_map_key_dropDupLast :
    ∀ (l : List α), ((dropDupLast key l).map key).Nodup := by
  intro l
  induction l with
  | nil => simp [dropDupLast]
  | cons a as ih =>
    rw [dropDupLast]
    split
    · exact ih
    · rename_i hc
      simp only [List.map_cons, List.nodup_cons]
      refine ⟨?_, ih⟩
      rw [mem_map_key_dropDupLast]
      intro hmem
      rcases List.mem_map.mp hmem with ⟨y, hy, he⟩
      exact hc (List.any_eq_true.mpr ⟨y, hy, by simp [he]⟩)

theorem getLast_filter_dropDupLast :
    ∀ {l : List α} {x : α}, x ∈ dropDupLast key l →
      (l.filter (fun y => decide (key y = key x))).getLast? = some x := by
  intro l
  induction l with
  | nil => intro x h; simp [dropDupLast] at h
  | cons a as ih =>
    intro x h
    rw [dropDupLast] at h
    rw [List.filter_cons]
    split at h
    · rename_i hc
      have htail := ih h
      have hxas : x ∈ as := mem_of_mem_dropDupLast key h
      have hne : as.filter (fun y => decide (key y = key x)) ≠ [] := by
        intro hnil
        have hxf : x ∈ as.filter (fun y => decide (key y = key x)) :=
          List.mem_filter.mpr ⟨hxas, by simp⟩
        rw [hnil] at hxf
        exact (List.not_mem_nil x) hxf
      rcases List.exists_cons_of_ne_nil hne with ⟨b, L, hbl⟩
      split
      · rw [hbl, List.getLast?_cons_cons, ← hbl]
        exact htail
      · exact htail
    · rename_i hc
      rcases List.mem_cons.mp h with rfl | htl
      · have hfnil : as.filter (fun y => decide (key y = key x)) = [] := by
          rw [List.filter_eq_nil_iff]
          intro y hy hp
          exact hc (List.any_eq_true.mpr ⟨y, hy, by simpa using hp⟩)
        simp [hfnil]
      · have hxas : x ∈ as := mem_of_mem_dropDupLast key htl
        have hkne : ¬ (key a = key x) := by
          intro he
          exact hc (List.any_eq_true.mpr ⟨x, hxas, by simp [he]⟩)
        rw [if_neg (by simpa using hkne)]
        exact ih htl

end DropDup

/-! ### Reduction of the merge on same-schema tables -/

theorem padKeyCols_of_mem :
    ∀ (t : Table) (ks : List String), (∀ k ∈ ks, k ∈ t.cols) → padKeyCols t ks = t
  | _, [], _ => rfl
  | t, k :: ks, h => by
    rw [padKeyCols, if_pos (h k (List.mem_cons_self _ _))]
    exact padKeyCols_of_mem t ks (fun c hc => h c (List.mem_cons_of_mem _ hc))

theorem map_rowVal_self :
    ∀ (cols : List String) (r : List Value), cols.Nodup → r.length = cols.length →
      cols.map (rowVal cols r) = r
  | [], [], _, _ => rfl
  | [], _ :: _, _, h => by simp at h
  | _ :: _, [], _, h => by simp at h
  | c :: cs, v :: vs, hnd, hlen => by
    simp only [List.map_cons]
    have h1 : rowVal (c :: cs) (v :: vs) c = v := by simp [rowVal]
    have h2 : cs.map (rowVal (c :: cs) (v :: vs)) = cs.map (rowVal cs vs) := by
      apply List.map_congr_left
      intro c' hc'
      have hne : ¬ (c = c') := fun he => (List.nodup_cons.mp hnd).1 (he ▸ hc')
      simp [rowVal, hne]
    rw [h1, h2, map_rowVal_self cs vs (List.nodup_cons.mp hnd).2 (by simpa using hlen)]

theorem concatTables_same_cols {a b : Table} (hcols : b.cols = a.cols)
    (hnd : a.cols.Nodup)
    (hwa : ∀ r ∈ a.rows, r.length = a.cols.length)
    (hwb : ∀ r ∈ b.rows, r.length = b.cols.length) :
    concatTables a b = ⟨a.cols, a.rows ++ b.rows⟩ := by
  have hfil : b.cols.filter (fun c => decide (c ∉ a.cols)) = [] := by
    rw [List.filter_eq_nil_iff]
    intro c hc
    simp [hcols ▸ hc]
  simp only [concatTables, hfil, List.append_nil]
  have h1 : a.rows.map (fun r => a.cols.map (rowVal a.cols r)) = a.rows := by
    rw [List.map_congr_left (fun r hr => map_rowVal_self a.cols r hnd (hwa r hr))]
    exact List.map_id a.rows
  have h2 : b.rows.map (fun r => a.cols.map (rowVal b.cols r)) = b.rows := by
    rw [← hcols]
    rw [List.map_congr_left
      (fun r hr => map_rowVal_self b.cols r (by rw [hcols]; exact hnd) (hwb r hr))]
    exact List.map_id b.rows
  rw [h1, h2]

theorem merge_dataframes_same_cols {E N : Table} (ks : List String)
    (hcols : N.cols = E.cols) (hnd : E.cols.Nodup) (hks : ∀ k ∈ ks, k ∈ E.cols)
    (hwE : ∀ r ∈ E.rows, r.length = E.cols.length)
    (hwN : ∀ r ∈ N.rows, r.length = N.cols.length) :
    merge_dataframes E N ks =
      ⟨E.cols, List.insertionSort (rowLe E.cols ks)
        (dropDupLast (keyOf E.cols ks) (E.rows ++ N.rows))⟩ := by
  simp only [merge_dataframes, padKeyCols_of_mem E ks hks,
    concatTables_same_cols hcols hnd hwE hwN]

/-! ### Claim C1 — correctness of the upsert merge -/

/-- C1: for every non-empty existing table `E` and non-empty new table `N`
over the same schema, the upsert merge `_merge_dataframes` produces a table
with exactly one row per distinct key of `keys(E) ∪ keys(N)`; any key present
in `N` resolves to `N`'s row for that key (last occurrence wins), and the
rows come out sorted ascending by the key columns. -/
theorem upsert_merge_correct (E N : Table) (ks : List String)
    (hE : E.rows ≠ []) (hN : N.rows ≠ [])
    (hcols : N.cols = E.cols) (hnd : E.cols.Nodup) (hks : ∀ k ∈ ks, k ∈ E.cols)
    (hwE : ∀ r ∈ E.rows, r.length = E.cols.length)
    (hwN : ∀ r ∈ N.rows, r.length = N.cols.length) :
    ((merge_dataframes E N ks).rows.map (keyOf E.cols ks)).Nodup
    ∧ (∀ k : List Value,
        k ∈ (merge_dataframes E N ks).rows.map (keyOf E.cols ks) ↔
          (k ∈ E.rows.map (keyOf E.cols ks) ∨ k ∈ N.rows.map (keyOf N.cols ks)))
    ∧ (∀ r ∈ (merge_dataframes E N ks).rows,
        keyOf E.cols ks r ∈ N.rows.map (keyOf N.cols ks) →
          (N.rows.filter
            (fun r2 => decide (keyOf N.cols ks r2 = keyOf E.cols ks r))).getLast? =
            some r)
    ∧ (merge_dataframes E N ks).rows.Sorted (rowLe E.cols ks) := by
  rw [hcols, merge_dataframes_same_cols ks hcols hnd hks hwE hwN]
  dsimp only
  have hperm :
      List.Perm
        (List.insertionSort (rowLe E.cols ks)
          (dropDupLast (keyOf E.cols ks) (E.rows ++ N.rows)))
        (dropDupLast (keyOf E.cols ks) (E.rows ++ N.rows)) :=
    List.perm_insertionSort _ _
  refine ⟨?_, ?_, ?_, ?_⟩
  · exact ((hperm.map (keyOf E.cols ks)).nodup_iff).mpr
      (nodup_map_key_dropDupLast (keyOf E.cols ks) _)
  · intro k
    rw [(hperm.map (keyOf E.cols ks)).mem_iff, mem_map_key_dropDupLast,
      List.map_append, List.mem_append]
  · intro r hr hkN
    have hr' : r ∈ dropDupLast (keyOf E.cols ks) (E.rows ++ N.rows) :=
      hperm.mem_iff.mp hr
    have hlast := getLast_filter_dropDupLast (keyOf E.cols ks) hr'
    rw [List.filter_append, List.getLast?_append] at hlast
    have hne : N.rows.filter
        (fun y => decide (keyOf E.cols ks y = keyOf E.cols ks r)) ≠ [] := by
      rcases List.mem_map.mp hkN with ⟨y, hy, he⟩
      intro hnil
      have hyf : y ∈ N.rows.filter
          (fun y => decide (keyOf E.cols ks y = keyOf E.cols ks r)) :=
        List.mem_filter.mpr ⟨hy, by simp [he]⟩
      rw [hnil] at hyf
      exact (List.not_mem_nil y) hyf
    rcases Option.isSome_iff_exists.mp (List.getLast?_isSome.mpr hne) with ⟨b, hb⟩
    rw [hb] at hlast
    simp only [Option.or] at hlast
    rw [hb]
    exact hlast
  · exact List.sorted_insertionSort (rowLe E.cols ks) _

/-- Concrete date for the witnesses below. -/
def exDate : Date := ⟨2024, 1, 10⟩

/-- Concrete existing table for the witnesses below. -/
def exE : Table :=
  ⟨["date", "url", "clicks"],
    [[.isoStr exDate, .str "/a", .int 3], [.isoStr exDate, .str "/c", .int 9]]⟩

/-- Concrete new table for the witnesses below. -/
def exN : Table :=
  ⟨["date", "url", "clicks"],
    [[.isoStr exDate, .str "/b", .int 5], [.isoStr exDate, .str "/a", .int 10]]⟩

/-- Witness for C1 at the concrete tables `exE`, `exN`. -/
theorem upsert_merge_correct_witness :
    exE.rows ≠ [] ∧
    (((merge_dataframes exE exN ["date", "url"]).rows.map
        (keyOf exE.cols ["date", "url"])).Nodup
    ∧ (∀ k : List Value,
        k ∈ (merge_dataframes exE exN ["date", "url"]).rows.map
            (keyOf exE.cols ["date", "url"]) ↔
          (k ∈ exE.rows.map (keyOf exE.cols ["date", "url"]) ∨
            k ∈ exN.rows.map (keyOf exN.cols ["date", "url"])))
    ∧ (∀ r ∈ (merge_dataframes exE exN ["date", "url"]).rows,
        keyOf exE.cols ["date", "url"] r ∈
            exN.rows.map (keyOf exN.cols ["date", "url"]) →
          (exN.rows.filter
            (fun r2 => decide (keyOf exN.cols ["date", "url"] r2 =
              keyOf exE.cols ["date", "url"] r))).getLast? = some r)
    ∧ (merge_dataframes exE exN ["date", "url"]).rows.Sorted
        (rowLe exE.cols ["date", "url"])) :=
  ⟨by decide,
    upsert_merge_correct exE exN ["date", "url"] (by decide) (by decide) rfl
      (by decide) (by decide) (by decide) (by decide)⟩

/-! ### Sheet upsert writer (`sheets_manager.update_sheet_with_dataframe`) -/

/-- Availability of the gspread client library and of the Sheets service
account credentials, which the source checks with a dynamic import and an
`os.path.exists` test. -/
structure SheetsEnv where
  gspreadAvailable : Bool
  credentialsOk : Bool
deriving DecidableEq

/-- Observable effect of one call of `update_sheet_with_dataframe`:
return with no I/O, local CSV backup export, creation of a missing worksheet
(header plus the new rows verbatim), or clear-and-rewrite of the worksheet
with the given table. -/
inductive WriteEffect where
  | noop : WriteEffect
  | csvExport : String → Table → WriteEffect
  | createdSheet : Table → WriteEffect
  | overwrote : Table → WriteEffect
deriving DecidableEq

/-- Embedding of `sheets_manager.update_sheet_with_dataframe`.  `existing` is
the current content of the named worksheet (`none` when the worksheet does
not exist; `get_all_records` of an absent/blank body reads as an empty
table). -/
def update_sheet_with_dataframe (env : SheetsEnv) (worksheet_title : String)
    (existing : Option Table) (dataframe : Table) (key_columns : List String) :
    WriteEffect :=
  if dataframe.rows = [] then .noop
  else if env.gspreadAvailable = false then .csvExport worksheet_title dataframe
  else if env.credentialsOk = false then .csvExport worksheet_title dataframe
  else
    match existing with
    | none => .createdSheet dataframe
    | some existing_df =>
      if existing_df.rows = [] then .overwrote dataframe
      else .overwrote (merge_dataframes existing_df dataframe key_columns)

/-- Worksheet content after a write effect is applied to the previous state
(`csvExport` touches only a local file, never the worksheet). -/
def storedWorksheet (prev : Option Table) : WriteEffect → Option Table
  | .noop => prev
  | .csvExport _ _ => prev
  | .createdSheet t => some t
  | .overwrote t => some t

/-- Key uniqueness of the merged table, with no assumptions on the inputs:
the dedup step keys on exactly the columns the result is keyed on. -/
theorem merged_keys_nodup (E N : Table) (ks : List String) :
    ((merge_dataframes E N ks).rows.map
      (keyOf (merge_dataframes E N ks).cols ks)).Nodup := by
  simp only [merge_dataframes]
  exact ((List.perm_insertionSort _ _).map _).nodup_iff.mpr
    (nodup_map_key_dropDupLast _ _)

/-! ### Claim C2 — key uniqueness after a write -/

/-- C2 counterexample: on the first-write path (worksheet absent) the new
table is stored verbatim, so a new table carrying a duplicate (date, url)
key leaves the stored worksheet with a duplicate key. -/
theorem write_unique_counterexample :
    update_sheet_with_dataframe ⟨true, true⟩ "gsc_data_daily" none
        ⟨["date", "url"],
          [[.isoStr ⟨2024, 1, 10⟩, .str "/a"], [.isoStr ⟨2024, 1, 10⟩, .str "/a"]]⟩
        ["date", "url"] =
      .createdSheet
        ⟨["date", "url"],
          [[.isoStr ⟨2024, 1, 10⟩, .str "/a"], [.isoStr ⟨2024, 1, 10⟩, .str "/a"]]⟩
    ∧ ¬ ((Table.mk ["date", "url"]
          [[.isoStr ⟨2024, 1, 10⟩, .str "/a"],
            [.isoStr ⟨2024, 1, 10⟩, .str "/a"]]).rows.map
          (keyOf ["date", "url"] ["date", "url"])).Nodup := by
  decide

/-- C2 (amended): a write that merges with a non-empty existing worksheet
stores a table whose (date, url) keys are unique, for every new table —
including new tables with duplicate keys; on the first-write path the new
table is stored verbatim instead. -/
theorem write_unique_amended (env : SheetsEnv) (title : String)
    (existing_df dataframe : Table)
    (hg : env.gspreadAvailable = true) (hc : env.credentialsOk = true)
    (hdf : dataframe.rows ≠ []) (hex : existing_df.rows ≠ []) :
    update_sheet_with_dataframe env title (some existing_df) dataframe
        ["date", "url"] =
      .overwrote (merge_dataframes existing_df dataframe ["date", "url"])
    ∧ ((merge_dataframes existing_df dataframe ["date", "url"]).rows.map
        (keyOf (merge_dataframes existing_df dataframe ["date", "url"]).cols
          ["date", "url"])).Nodup
    ∧ update_sheet_with_dataframe env title none dataframe ["date", "url"] =
        .createdSheet dataframe := by
  refine ⟨?_, merged_keys_nodup _ _ _, ?_⟩
  · simp [update_sheet_with_dataframe, hdf, hex, hg, hc]
  · simp [update_sheet_with_dataframe, hdf, hg, hc]

/-- Witness for the amended C2 at concrete inputs. -/
theorem write_unique_amended_witness :
    exN.rows ≠ [] ∧
    (update_sheet_with_dataframe ⟨true, true⟩ "gsc_data_daily" (some exE) exN
        ["date", "url"] =
      .overwrote (merge_dataframes exE exN ["date", "url"])
    ∧ ((merge_dataframes exE exN ["date", "url"]).rows.map
        (keyOf (merge_dataframes exE exN ["date", "url"]).cols
          ["date", "url"])).Nodup
    ∧ update_sheet_with_dataframe ⟨true, true⟩ "gsc_data_daily" none exN
        ["date", "url"] = .createdSheet exN) :=
  ⟨by decide,
    write_unique_amended ⟨true, true⟩ "gsc_data_daily" exE exN rfl rfl
      (by decide) (by decide)⟩

/-! ### Claim C7 — empty new table is a no-op -/

/-- C7: called with an empty new table, the writer returns before any read,
write, worksheet creation or CSV export, and the stored worksheet state is
unchanged. -/
theorem write_empty_noop (env : SheetsEnv) (title : String)
    (existing : Option Table) (dataframe : Table) (ks : List String)
    (hdf : dataframe.rows = []) :
    update_sheet_with_dataframe env title existing dataframe ks = .noop
    ∧ storedWorksheet existing
        (update_sheet_with_dataframe env title existing dataframe ks) =
      existing := by
  have h : update_sheet_with_dataframe env title existing dataframe ks = .noop := by
    simp [update_sheet_with_dataframe, hdf]
  exact ⟨h, by rw [h]; rfl⟩

/-- Witness for C7 at concrete inputs. -/
theorem write_empty_noop_witness :
    (Table.mk ["date", "url"] []).rows = [] ∧
    (update_sheet_with_dataframe ⟨true, true⟩ "ga4_data_daily" (some exE)
        ⟨["date", "url"], []⟩ ["date", "url"] = .noop
    ∧ storedWorksheet (some exE)
        (update_sheet_with_dataframe ⟨true, true⟩ "ga4_data_daily" (some exE)
          ⟨["date", "url"], []⟩ ["date", "url"]) = some exE) :=
  ⟨rfl,
    write_empty_noop ⟨true, true⟩ "ga4_data_daily" (some exE)
      ⟨["date", "url"], []⟩ ["date", "url"] rfl⟩

/-! ### Table normalizer (`data_pipeline._prepare_dataframe`) -/

/-- Embedding of `pd.to_datetime(v).dt.date` on one cell: a date passes
through, a string holding an ISO date parses back to that date, anything
else makes the conversion raise (abstraction: cells that pandas would parse
as dates are represented by `date`/`isoStr` constructors; `str` holds
non-date strings, see the module docstring; a `None`/`NaN` cell and integer
epoch interpretation are outside the modelled success domain). -/
def toDatetimeValue : Value → Option Date
  | .date d => some d
  | .isoStr d => some d
  | _ => none

/-- Embedding of `fillna(0)` on one cell. -/
def Value.fillna : Value → Value
  | .null => .int 0
  | v => v

/-- Conversion `df[date_column] = pd.to_datetime(df[date_column]).dt.date.astype(str)`
applied to one row, walking columns and cells in lockstep; a ragged row
(impossible for a real rectangular frame) fails. -/
def convertDateCol (date_column : String) : List String → List Value → Option (List Value)
  | [], [] => some []
  | c :: cs, v :: vs =>
    if c = date_column then
      match toDatetimeValue v, convertDateCol date_column cs vs with
      | some d, some rest => some (.isoStr d :: rest)
      | _, _ => none
    else
      (convertDateCol date_column cs vs).map (fun rest => v :: rest)
  | _, _ => none

/-- Embedding of `data_pipeline._prepare_dataframe`: no-op on an empty
frame, otherwise convert the date column to ISO strings, `fillna(0)`, and
reselect the columns as `[date_column, "url", ...rest]`.  The guard models
the pandas failure modes: `df[date_column]` raises on a missing column,
label selection raises on duplicate column labels, and `df[ordered_cols]`
raises when `"url"` is absent. -/
def prepare_dataframe (df : Table) (date_column : String) : Option Table :=
  if df.rows = [] then some df
  else if df.cols.Nodup ∧ date_column ∈ df.cols ∧ "url" ∈ df.cols then
    match df.rows.mapM (convertDateCol date_column df.cols) with
    | none => none
    | some rows1 =>
      let rows2 := rows1.map (fun r => r.map Value.fillna)
      let ordered := date_column :: "url" ::
        df.cols.filter (fun c => !(c == date_column || c == "url"))
      some ⟨ordered, rows2.map (fun r => ordered.map (rowVal df.cols r))⟩
  else none

/-! ### Helper lemmas about the normalizer's pieces -/

theorem fillna_ne_null (v : Value) : Value.fillna v ≠ .null := by
  cases v <;> simp [Value.fillna]

theorem fillna_fillna (v : Value) : Value.fillna (Value.fillna v) = Value.fillna v := by
  cases v <;> rfl

theorem rowVal_mem :
    ∀ {cols : List String} {r : List Value} {c : String},
      c ∈ cols → r.length = cols.length → rowVal cols r c ∈ r := by
  intro cols
  induction cols with
  | nil => intro r c hc; exact absurd hc (List.not_mem_nil c)
  | cons c0 cs ih =>
    intro r c hc hlen
    cases r with
    | nil => simp at hlen
    | cons v vs =>
      rw [rowVal]
      by_cases he : c0 = c
      · rw [if_pos he]; exact List.mem_cons_self _ _
      · rw [if_neg he]
        have hc' : c ∈ cs := by
          rcases List.mem_cons.mp hc with rfl | hc'
          · exact absurd rfl he
          · exact hc'
        exact List.mem_cons_of_mem _ (ih hc' (by simpa using hlen))

theorem rowVal_map (f : Value → Value) :
    ∀ {cols : List String} {r : List Value} {c : String},
      c ∈ cols → r.length = cols.length →
      rowVal cols (r.map f) c = f (rowVal cols r c) := by
  intro cols
  induction cols with
  | nil => intro r c hc; exact absurd hc (List.not_mem_nil c)
  | cons c0 cs ih =>
    intro r c hc hlen
    cases r with
    | nil => simp at hlen
    | cons v vs =>
      simp only [List.map_cons, rowVal]
      by_cases he : c0 = c
      · rw [if_pos he, if_pos he]
      · rw [if_neg he, if_neg he]
        have hc' : c ∈ cs := by
          rcases List.mem_cons.mp hc with rfl | hc'
          · exact absurd rfl he
          · exact hc'
        exact ih hc' (by simpa using hlen)

theorem convertDateCol_lengths {dc : String} :
    ∀ {cols : List String} {r r1 : List Value},
      convertDateCol dc cols r = some r1 →
      r.length = cols.length ∧ r1.length = cols.length := by
  intro cols
  induction cols with
  | nil =>
    intro r r1 h
    cases r with
    | nil =>
      simp only [convertDateCol, Option.some_inj] at h
      simp [← h]
    | cons v vs => exact Option.noConfusion h
  | cons c cs ih =>
    intro r r1 h
    cases r with
    | nil => exact Option.noConfusion h
    | cons v vs =>
      rw [convertDateCol] at h
      split at h
      · cases hv : toDatetimeValue v with
        | none => rw [hv] at h; simp at h
        | some d =>
          rw [hv] at h
          cases hr : convertDateCol dc cs vs with
          | none => rw [hr] at h; simp at h
          | some rest =>
            rw [hr] at h
            simp only [Option.some_inj] at h
            obtain ⟨h1, h2⟩ := ih hr
            simp [← h, h1, h2]
      · cases hr : convertDateCol dc cs vs with
        | none => rw [hr] at h; simp at h
        | some rest =>
          rw [hr] at h
          simp at h
          obtain ⟨h1, h2⟩ := ih hr
          simp [← h, h1, h2]

theorem convertDateCol_rowVal_iso {dc : String} :
    ∀ {cols : List String} {r r1 : List Value}, dc ∈ cols →
      convertDateCol dc cols r = some r1 →
      ∃ d, rowVal cols r1 dc = .isoStr d := by
  intro cols
  induction cols with
  | nil => intro r r1 hc; exact absurd hc (List.not_mem_nil dc)
  | cons c cs ih =>
    intro r r1 hc h
    cases r with
    | nil => exact Option.noConfusion h
    | cons v vs =>
      rw [convertDateCol] at h
      split at h
      · rename_i he
        cases hv : toDatetimeValue v with
        | none => rw [hv] at h; simp at h
        | some d =>
          rw [hv] at h
          cases hr : convertDateCol dc cs vs with
          | none => rw [hr] at h; simp at h
          | some rest =>
            rw [hr] at h
            simp only [Option.some_inj] at h
            refine ⟨d, ?_⟩
            rw [← h, rowVal, if_pos he]
      · rename_i he
        cases hr : convertDateCol dc cs vs with
        | none => rw [hr] at h; simp at h
        | some rest =>
          rw [hr] at h
          simp at h
          have hc' : dc ∈ cs := by
            rcases List.mem_cons.mp hc with rfl | hc'
            · exact absurd rfl he
            · exact hc'
          rcases ih hc' hr with ⟨d, hd⟩
          refine ⟨d, ?_⟩
          rw [← h, rowVal, if_neg he]
          exact hd

theorem convertDateCol_not_mem {dc : String} :
    ∀ {cols : List String} {r : List Value}, dc ∉ cols →
      r.length = cols.length → convertDateCol dc cols r = some r := by
  intro cols
  induction cols with
  | nil =>
    intro r hdc hlen
    cases r with
    | nil => rfl
    | cons v vs => simp at hlen
  | cons c cs ih =>
    intro r hdc hlen
    cases r with
    | nil => simp at hlen
    | cons v vs =>
      have hne : ¬ (c = dc) := fun he => hdc (he ▸ List.mem_cons_self c cs)
      rw [convertDateCol, if_neg hne,
        ih (fun hm => hdc (List.mem_cons_of_mem _ hm)) (by simpa using hlen)]
      rfl

theorem mapM_option_length {α β : Type} {f : α → Option β} :
    ∀ {l : List α} {l' : List β}, l.mapM f = some l' → l'.length = l.length := by
  intro l
  induction l with
  | nil => intro l' h; simp only [List.mapM_nil, Option.pure_def, Option.some_inj] at h; simp [← h]
  | cons a as ih =>
    intro l' h
    rw [List.mapM_cons] at h
    cases hfa : f a with
    | none => rw [hfa] at h; simp at h
    | some b =>
      rw [hfa] at h
      cases hrest : as.mapM f with
      | none => rw [hrest] at h; simp at h
      | some bs =>
        rw [hrest] at h
        simp at h
        subst h
        simp [ih hrest]

theorem mapM_option_mem {α β : Type} {f : α → Option β} :
    ∀ {l : List α} {l' : List β}, l.mapM f = some l' →
      ∀ b ∈ l', ∃ a ∈ l, f a = some b := by
  intro l
  induction l with
  | nil =>
    intro l' h b hb
    simp only [List.mapM_nil, Option.pure_def, Option.some_inj] at h
    rw [← h] at hb
    exact absurd hb (List.not_mem_nil b)
  | cons a as ih =>
    intro l' h b hb
    rw [List.mapM_cons] at h
    cases hfa : f a with
    | none => rw [hfa] at h; simp at h
    | some b0 =>
      rw [hfa] at h
      cases hrest : as.mapM f with
      | none => rw [hrest] at h; simp at h
      | some bs =>
        rw [hrest] at h
        simp at h
        subst h
        rcases List.mem_cons.mp hb with rfl | hb'
        · exact ⟨a, List.mem_cons_self _ _, hfa⟩
        · rcases ih hrest b hb' with ⟨a', ha', hfa'⟩
          exact ⟨a', List.mem_cons_of_mem _ ha', hfa'⟩

theorem mapM_option_some_id {α : Type} {f : α → Option α} :
    ∀ {l : List α}, (∀ a ∈ l, f a = some a) → l.mapM f = some l := by
  intro l
  induction l with
  | nil => intro; rfl
  | cons a as ih =>
    intro h
    rw [List.mapM_cons, h a (List.mem_cons_self _ _),
      ih (fun x hx => h x (List.mem_cons_of_mem _ hx))]
    rfl

theorem prepare_shape {df : Table} {dc : String} {t' : Table}
    (hrows : df.rows ≠ []) (h : prepare_dataframe df dc = some t') :
    df.cols.Nodup ∧ dc ∈ df.cols ∧ "url" ∈ df.cols ∧
    ∃ rows1, df.rows.mapM (convertDateCol dc df.cols) = some rows1 ∧
      t' = ⟨dc :: "url" :: df.cols.filter (fun c => !(c == dc || c == "url")),
            (rows1.map (fun r => r.map Value.fillna)).map
              (fun r =>
                (dc :: "url" ::
                  df.cols.filter (fun c => !(c == dc || c == "url"))).map
                  (rowVal df.cols r))⟩ := by
  rw [prepare_dataframe, if_neg hrows] at h
  by_cases hg : df.cols.Nodup ∧ dc ∈ df.cols ∧ "url" ∈ df.cols
  · rw [if_pos hg] at h
    cases hmm : df.rows.mapM (convertDateCol dc df.cols) with
    | none => rw [hmm] at h; exact Option.noConfusion h
    | some rows1 =>
      rw [hmm] at h
      exact ⟨hg.1, hg.2.1, hg.2.2, rows1, rfl, (Option.some_inj.mp h).symm⟩
  · rw [if_neg hg] at h
    exact Option.noConfusion h

/-- Columns selected by the normalizer's reordering all come from the input
frame. -/
theorem ordered_subset {df : Table} {dc : String}
    (hdcm : dc ∈ df.cols) (hurl : "url" ∈ df.cols) :
    ∀ c ∈ dc :: "url" :: df.cols.filter (fun c => !(c == dc || c == "url")),
      c ∈ df.cols := by
  intro c hc
  rcases List.mem_cons.mp hc with rfl | hc
  · exact hdcm
  · rcases List.mem_cons.mp hc with rfl | hc
    · exact hurl
    · exact (List.mem_filter.mp hc).1

/-! ### Claim C4 — what the normalizer computes -/

/-- C4: `_prepare_dataframe` is a no-op on an empty table; on a non-empty
table it succeeds with the columns reordered to `[date_column, "url",
...rest in original order]`, one output row per input row, the date column
holding an ISO-8601 date string in every row, and no missing value left
anywhere. -/
theorem prepare_characterization (df : Table) (dc : String) (t' : Table)
    (h : prepare_dataframe df dc = some t') :
    (df.rows = [] → t' = df)
    ∧ (df.rows ≠ [] →
        t'.cols = dc :: "url" :: df.cols.filter (fun c => !(c == dc || c == "url"))
        ∧ t'.rows.length = df.rows.length
        ∧ (∀ r ∈ t'.rows, ∃ d, rowVal t'.cols r dc = Value.isoStr d)
        ∧ (∀ r ∈ t'.rows, ∀ v ∈ r, v ≠ Value.null)) := by
  constructor
  · intro hrows
    rw [prepare_dataframe, if_pos hrows] at h
    exact (Option.some_inj.mp h).symm
  · intro hrows
    obtain ⟨hnd, hdcm, hurl, rows1, hmm, ht⟩ := prepare_shape hrows h
    subst ht
    refine ⟨rfl, ?_, ?_, ?_⟩
    · simp [mapM_option_length hmm]
    · intro r hr
      obtain ⟨r2, hr2, rfl⟩ := List.mem_map.mp hr
      obtain ⟨r1, hr1, rfl⟩ := List.mem_map.mp hr2
      obtain ⟨r0, hr0, hconv⟩ := mapM_option_mem hmm r1 hr1
      obtain ⟨hl0, hl1⟩ := convertDateCol_lengths hconv
      obtain ⟨d, hd⟩ := convertDateCol_rowVal_iso hdcm hconv
      refine ⟨d, ?_⟩
      rw [List.map_cons, rowVal, if_pos rfl,
        rowVal_map Value.fillna hdcm hl1, hd]
      rfl
    · intro r hr v hv
      obtain ⟨r2, hr2, rfl⟩ := List.mem_map.mp hr
      obtain ⟨r1, hr1, rfl⟩ := List.mem_map.mp hr2
      obtain ⟨r0, hr0, hconv⟩ := mapM_option_mem hmm r1 hr1
      obtain ⟨hl0, hl1⟩ := convertDateCol_lengths hconv
      obtain ⟨c, hcmem, rfl⟩ := List.mem_map.mp hv
      have hccols : c ∈ df.cols := ordered_subset hdcm hurl c hcmem
      have hvmem : rowVal df.cols (r1.map Value.fillna) c ∈ r1.map Value.fillna :=
        rowVal_mem hccols (by simp [hl1])
      obtain ⟨w, hw, hwe⟩ := List.mem_map.mp hvmem
      rw [← hwe]
      exact fillna_ne_null w

/-- Tables already in normalized shape are fixed points of the normalizer:
columns `[dc, "url", ...rest]` with no duplicates, every row full-length,
starting with an ISO date string, and untouched by `fillna`. -/
theorem prepare_fixes (dc : String) (rest : List String)
    (rows3 : List (List Value))
    (hnd2 : (dc :: "url" :: rest).Nodup)
    (hne : rows3 ≠ [])
    (hfix : ∀ r ∈ rows3, r.length = (dc :: "url" :: rest).length
      ∧ (∃ d tail, r = Value.isoStr d :: tail)
      ∧ r.map Value.fillna = r) :
    prepare_dataframe ⟨dc :: "url" :: rest, rows3⟩ dc =
      some ⟨dc :: "url" :: rest, rows3⟩ := by
  have hdcnotin : dc ∉ "url" :: rest := (List.nodup_cons.mp hnd2).1
  have hurlnotin : "url" ∉ rest :=
    (List.nodup_cons.mp (List.nodup_cons.mp hnd2).2).1
  have hconv : ∀ r ∈ rows3, convertDateCol dc (dc :: "url" :: rest) r = some r := by
    intro r hr
    obtain ⟨hlen, ⟨d, tail, rfl⟩, _⟩ := hfix r hr
    rw [convertDateCol, if_pos rfl,
      convertDateCol_not_mem hdcnotin (by simpa using hlen)]
    rfl
  have hfilter :
      (dc :: "url" :: rest).filter (fun c => !(c == dc || c == "url")) = rest := by
    have hp1 : (fun c => !(c == dc || c == "url")) dc = false := by simp
    have hp2 : (fun c => !(c == dc || c == "url")) "url" = false := by simp
    rw [List.filter_cons_of_neg (by simp [hp1]), List.filter_cons_of_neg (by simp [hp2])]
    apply List.filter_eq_self.mpr
    intro a ha
    have h1 : a ≠ dc := fun he => hdcnotin (he ▸ List.mem_cons_of_mem _ ha)
    have h2 : a ≠ "url" := fun he => hurlnotin (he ▸ ha)
    simp [h1, h2]
  have hfill3 : rows3.map (fun r => r.map Value.fillna) = rows3 := by
    rw [List.map_congr_left (fun r hr => (hfix r hr).2.2)]
    exact List.map_id rows3
  have hsel : rows3.map
      (fun r => (dc :: "url" :: rest).map (rowVal (dc :: "url" :: rest) r)) =
      rows3 := by
    rw [List.map_congr_left
      (fun r hr => map_rowVal_self (dc :: "url" :: rest) r hnd2 (hfix r hr).1)]
    exact List.map_id rows3
  rw [prepare_dataframe, if_neg hne,
    if_pos ⟨hnd2, List.mem_cons_self _ _,
      List.mem_cons_of_mem _ (List.mem_cons_self _ _)⟩,
    mapM_option_some_id hconv]
  simp only [hfilter, hfill3, hsel]

/-! ### Claim C3 — normalizer idempotence -/

/-- C3: the normalizer is idempotent — whenever `_prepare_dataframe`
succeeds, running it again on its output returns the output unchanged
(the pipeline's date column `"date"` is distinct from `"url"`, which the
hypothesis records). -/
theorem prepare_idempotent (df : Table) (dc : String) (t' : Table)
    (hdc : dc ≠ "url") (h : prepare_dataframe df dc = some t') :
    prepare_dataframe t' dc = some t' := by
  by_cases hrows : df.rows = []
  · rw [prepare_dataframe, if_pos hrows] at h
    obtain rfl := Option.some_inj.mp h
    rw [prepare_dataframe, if_pos hrows]
  · obtain ⟨hnd, hdcm, hurl, rows1, hmm, ht⟩ := prepare_shape hrows h
    have hnd2 : (dc :: "url" ::
        df.cols.filter (fun c => !(c == dc || c == "url"))).Nodup := by
      refine List.nodup_cons.mpr ⟨?_, List.nodup_cons.mpr ⟨?_, hnd.filter _⟩⟩
      · intro hmem
        rcases List.mem_cons.mp hmem with he | hmem
        · exact hdc he
        · have hpred := (List.mem_filter.mp hmem).2
          simp at hpred
      · intro hmem
        have hpred := (List.mem_filter.mp hmem).2
        simp at hpred
    have hne3 : (rows1.map (fun r => r.map Value.fillna)).map
        (fun r =>
          (dc :: "url" ::
            df.cols.filter (fun c => !(c == dc || c == "url"))).map
            (rowVal df.cols r)) ≠ [] := by
      intro h0
      apply hrows
      have hlen := congrArg List.length h0
      simp [mapM_option_length hmm] at hlen
      exact hlen
    have hfix : ∀ r ∈ (rows1.map (fun r => r.map Value.fillna)).map
        (fun r =>
          (dc :: "url" ::
            df.cols.filter (fun c => !(c == dc || c == "url"))).map
            (rowVal df.cols r)),
        r.length = (dc :: "url" ::
          df.cols.filter (fun c => !(c == dc || c == "url"))).length
        ∧ (∃ d tail, r = Value.isoStr d :: tail)
        ∧ r.map Value.fillna = r := by
      intro r hr
      obtain ⟨r2, hr2, rfl⟩ := List.mem_map.mp hr
      obtain ⟨r1, hr1, rfl⟩ := List.mem_map.mp hr2
      obtain ⟨r0, hr0, hconv⟩ := mapM_option_mem hmm r1 hr1
      obtain ⟨hl0, hl1⟩ := convertDateCol_lengths hconv
      obtain ⟨d, hd⟩ := convertDateCol_rowVal_iso hdcm hconv
      refine ⟨by simp, ?_, ?_⟩
      · refine ⟨d, ("url" ::
          df.cols.filter (fun c => !(c == dc || c == "url"))).map
            (rowVal df.cols (r1.map Value.fillna)), ?_⟩
        rw [List.map_cons]
        congr 1
        rw [rowVal_map Value.fillna hdcm hl1, hd]
        rfl
      · rw [List.map_map]
        apply List.map_congr_left
        intro c hc
        have hccols : c ∈ df.cols := ordered_subset hdcm hurl c hc
        have hvmem : rowVal df.cols (r1.map Value.fillna) c ∈ r1.map Value.fillna :=
          rowVal_mem hccols (by simp [hl1])
        obtain ⟨w, hw, hwe⟩ := List.mem_map.mp hvmem
        show Value.fillna (rowVal df.cols (r1.map Value.fillna) c) = _
        rw [← hwe, fillna_fillna]
    subst ht
    exact prepare_fixes dc _ _ hnd2 hne3 hfix

/-- Concrete un-normalized table for the witnesses below: wrong column
order, a missing value, and a date-typed date cell. -/
def exRaw : Table :=
  ⟨["url", "clicks", "date"], [[.str "/a", .null, .date ⟨2024, 1, 10⟩]]⟩

/-- Output of the normalizer on `exRaw`. -/
def exPrepared : Table :=
  ⟨["date", "url", "clicks"], [[.isoStr ⟨2024, 1, 10⟩, .str "/a", .int 0]]⟩

/-- Witness for C4 at the concrete table `exRaw`. -/
theorem prepare_characterization_witness :
    prepare_dataframe exRaw "date" = some exPrepared
    ∧ ((exRaw.rows = [] → exPrepared = exRaw)
      ∧ (exRaw.rows ≠ [] →
          exPrepared.cols = "date" :: "url" ::
            exRaw.cols.filter (fun c => !(c == "date" || c == "url"))
          ∧ exPrepared.rows.length = exRaw.rows.length
          ∧ (∀ r ∈ exPrepared.rows,
              ∃ d, rowVal exPrepared.cols r "date" = Value.isoStr d)
          ∧ (∀ r ∈ exPrepared.rows, ∀ v ∈ r, v ≠ Value.null))) :=
  ⟨by decide, prepare_characterization exRaw "date" exPrepared (by decide)⟩

/-- Witness for C3 at the concrete table `exRaw`. -/
theorem prepare_idempotent_witness :
    prepare_dataframe exRaw "date" = some exPrepared
    ∧ prepare_dataframe exPrepared "date" = some exPrepared :=
  ⟨by decide, prepare_idempotent exRaw "date" exPrepared (by decide) (by decide)⟩

/-! ### Search Console connector (`gsc_connector.fetch_daily_gsc_data`) -/

/-- Availability of the Google API client libraries and the GSC service
account credentials file (`GSC_SERVICE_ACCOUNT_JSON` set and existing). -/
structure GscEnv where
  googleLibAvailable : Bool
  credentialsOk : Bool
deriving DecidableEq

/-- One row of a Search Console `searchanalytics.query` response, already
shaped: first `keys` entry plus the four metrics (the `.get(..., 0)`
defaults of the source are absorbed by the total fields). -/
structure GscApiRow where
  url : String
  clicks : Int
  impressions : Int
  ctr : Rat
  position : Rat
deriving DecidableEq

/-- Declared column schema of the search connector. -/
def gscSchema : List String :=
  ["date", "url", "clicks", "impressions", "ctr", "position"]

/-- Embedding of `gsc_connector._build_sample_df`. -/
def build_sample_df_gsc (target_date : Date) : Table :=
  ⟨gscSchema,
    [[.date target_date, .str "https://ejemplo.com/articulo-1", .int 120,
        .int 4500, .float (26 / 1000), .float (84 / 10)],
      [.date target_date, .str "https://ejemplo.com/articulo-2", .int 75,
        .int 5200, .float (14 / 1000), .float (121 / 10)]]⟩

/-- Embedding of `gsc_connector.fetch_daily_gsc_data`.  `api` stands for the
live `searchanalytics().query(...).execute()` call: either its row list or
the exception it raises.  A missing `site_url` raises inside the `try` and is
caught by the blanket `except`, hence the empty typed table. -/
def fetch_daily_gsc_data (env : GscEnv) (target_date : Date)
    (site_url : Option String) (api : Except String (List GscApiRow)) : Table :=
  if env.googleLibAvailable = false then build_sample_df_gsc target_date
  else if env.credentialsOk = false then build_sample_df_gsc target_date
  else
    match site_url with
    | none => ⟨gscSchema, []⟩
    | some _ =>
      match api with
      | .error _ => ⟨gscSchema, []⟩
      | .ok rows =>
        if rows.isEmpty then ⟨gscSchema, []⟩
        else
          ⟨gscSchema,
            rows.map (fun r =>
              [.date target_date, .str r.url, .int r.clicks,
                .int r.impressions, .float r.ctr, .float r.position])⟩

/-! ### GA4 connector (`ga4_connector.fetch_daily_ga4_data`) -/

/-- Availability of the GA4 client library and the GA4 service account
credentials file (`GA_SERVICE_ACCOUNT_JSON` set and existing). -/
structure Ga4Env where
  ga4LibAvailable : Bool
  credentialsOk : Bool
deriving DecidableEq

/-- One row of a GA4 `run_report` response: the dimension value plus the
four metric values. -/
structure Ga4ApiRow where
  dimensionValue : String
  users : Rat
  sessions : Rat
  avgSessionDuration : Rat
  bounceRate : Rat
deriving DecidableEq

/-- Declared column schema of the analytics connector. -/
def ga4Schema : List String :=
  ["date", "url", "users", "sessions", "avg_session_duration", "bounce_rate"]

/-- Prioritized list of GA4 page-dimension names tried in order. -/
def ga4DimensionsPriority : List String :=
  ["pageLocation", "landingPagePlusQueryString", "pagePathPlusQueryString",
    "pagePath"]

/-- Embedding of `ga4_connector._build_sample_df`. -/
def build_sample_df_ga4 (target_date : Date) : Table :=
  ⟨ga4Schema,
    [[.date target_date, .str "/articulo-1", .int 320, .int 410,
        .float (1805 / 10), .float (48 / 100)],
      [.date target_date, .str "/articulo-2", .int 145, .int 200,
        .float (2200 / 10), .float (35 / 100)]]⟩

/-- Record produced by `_rows_to_ga4_records` for one kept response row. -/
structure Ga4Record where
  url : String
  users : Rat
  sessions : Rat
  avgSessionDuration : Rat
  bounceRate : Rat
deriving DecidableEq

/-- Python `rstrip("/")`. -/
def rstripSlashes (s : String) : String :=
  String.mk ((s.data.reverse.dropWhile (fun c => c = '/')).reverse)

/-- Python `lstrip("/")`. -/
def lstripSlashes (s : String) : String :=
  String.mk (s.data.dropWhile (fun c => c = '/'))

/-- Dimension names whose values are relative paths and get their leading
slash stripped before joining to the base URL. -/
def ga4PathDimensions : List String :=
  ["pagePath", "landingPagePlusQueryString", "pagePathPlusQueryString"]

/-- Embedding of `ga4_connector._rows_to_ga4_records`: skip blank dimension
values, pass absolute URLs through, join relative values to the stripped
base URL. -/
def rows_to_ga4_records (rows : List Ga4ApiRow) (dimension_name : String)
    (base_url : String) : List Ga4Record :=
  let base_url := rstripSlashes base_url
  rows.filterMap (fun row =>
    let raw_value := row.dimensionValue.trim
    if raw_value = "" then none
    else
      let page_url :=
        if raw_value.startsWith "http://" || raw_value.startsWith "https://" then
          raw_value
        else
          let normalized :=
            if dimension_name ∈ ga4PathDimensions then lstripSlashes raw_value
            else raw_value
          if base_url ≠ "" then base_url ++ "/" ++ normalized else normalized
      some ⟨page_url, row.users, row.sessions, row.avgSessionDuration,
        row.bounceRate⟩)

/-- Rounding to `n` decimal digits, as `Series.round(n)` (the tie-breaking
of floats is immaterial to the claims). -/
def roundTo (decimals : Nat) (q : Rat) : Rat :=
  (round (q * ((10 : Rat) ^ decimals)) : Int) / ((10 : Rat) ^ decimals)

/-- DataFrame built from GA4 records, with the numeric coercions of the
source: counts rounded to integers, durations to 2 decimals, ratios to 4. -/
def ga4RecordsToTable (target_date : Date) (records : List Ga4Record) : Table :=
  ⟨ga4Schema,
    records.map (fun r =>
      [.date target_date, .str r.url, .int (round r.users),
        .int (round r.sessions), .float (roundTo 2 r.avgSessionDuration),
        .float (roundTo 4 r.bounceRate)])⟩

/-- Loop over the prioritized dimension names: first dimension with usable
rows wins; an exception anywhere in the `try` body is caught by the blanket
`except` and yields the empty typed table. -/
def ga4DimensionLoop (api : String → Except String (List Ga4ApiRow))
    (target_date : Date) (base_url : String) : List String → Table
  | [] => ⟨ga4Schema, []⟩
  | dim :: dims =>
    match api dim with
    | .error _ => ⟨ga4Schema, []⟩
    | .ok rows =>
      let data := rows_to_ga4_records rows dim base_url
      if data.isEmpty then ga4DimensionLoop api target_date base_url dims
      else ga4RecordsToTable target_date data

/-- Embedding of `ga4_connector.fetch_daily_ga4_data`.  `api` stands for the
live `client.run_report` call per dimension name.  A missing (`None` or
empty) `property_id` raises `ValueError` before the `try` block, so it
propagates to the caller — hence the `Except` result type. -/
def fetch_daily_ga4_data (env : Ga4Env) (property_id : Option String)
    (target_date : Date) (api : String → Except String (List Ga4ApiRow))
    (base_url : String) : Except String Table :=
  if env.ga4LibAvailable = false then .ok (build_sample_df_ga4 target_date)
  else if env.credentialsOk = false then .ok (build_sample_df_ga4 target_date)
  else if property_id = none ∨ property_id = some "" then
    .error "property_id requerido para consultar GA4"
  else .ok (ga4DimensionLoop api target_date base_url ga4DimensionsPriority)

/-! ### Claim C5 — sample fallback when credentials or library are absent -/

/-- C5: a connector invoked with the client library unavailable or with no
credentials configured never raises: it returns the deterministic 2-row
sample table, every row stamped with the requested target date, under the
connector's full column schema. -/
theorem connector_sample_fallback (genv : GscEnv) (aenv : Ga4Env)
    (target_date : Date) (site_url property_id : Option String)
    (gapi : Except String (List GscApiRow))
    (aapi : String → Except String (List Ga4ApiRow)) (base_url : String)
    (hg : genv.googleLibAvailable = false ∨ genv.credentialsOk = false)
    (ha : aenv.ga4LibAvailable = false ∨ aenv.credentialsOk = false) :
    fetch_daily_gsc_data genv target_date site_url gapi =
      build_sample_df_gsc target_date
    ∧ (build_sample_df_gsc target_date).cols = gscSchema
    ∧ (build_sample_df_gsc target_date).rows.length = 2
    ∧ (∀ r ∈ (build_sample_df_gsc target_date).rows,
        rowVal gscSchema r "date" = .date target_date)
    ∧ fetch_daily_ga4_data aenv property_id target_date aapi base_url =
        .ok (build_sample_df_ga4 target_date)
    ∧ (build_sample_df_ga4 target_date).cols = ga4Schema
    ∧ (build_sample_df_ga4 target_date).rows.length = 2
    ∧ (∀ r ∈ (build_sample_df_ga4 target_date).rows,
        rowVal ga4Schema r "date" = .date target_date) := by
  refine ⟨?_, rfl, rfl, ?_, ?_, rfl, rfl, ?_⟩
  · rw [fetch_daily_gsc_data.eq_def]
    rcases hg with h | h
    · rw [if_pos h]
    · by_cases hl : genv.googleLibAvailable = false
      · rw [if_pos hl]
      · rw [if_neg hl, if_pos h]
  · intro r hr
    rcases List.mem_cons.mp hr with rfl | hr
    · rfl
    rcases List.mem_cons.mp hr with rfl | hr
    · rfl
    · exact absurd hr (List.not_mem_nil _)
  · rw [fetch_daily_ga4_data.eq_def]
    rcases ha with h | h
    · rw [if_pos h]
    · by_cases hl : aenv.ga4LibAvailable = false
      · rw [if_pos hl]
      · rw [if_neg hl, if_pos h]
  · intro r hr
    rcases List.mem_cons.mp hr with rfl | hr
    · rfl
    rcases List.mem_cons.mp hr with rfl | hr
    · rfl
    · exact absurd hr (List.not_mem_nil _)

/-- Witness for C5 at a concrete degraded environment. -/
theorem connector_sample_fallback_witness :
    ((⟨false, true⟩ : GscEnv).googleLibAvailable = false ∨
      (⟨false, true⟩ : GscEnv).credentialsOk = false) ∧
    (fetch_daily_gsc_data ⟨false, true⟩ exDate none (.ok []) =
      build_sample_df_gsc exDate
    ∧ (build_sample_df_gsc exDate).cols = gscSchema
    ∧ (build_sample_df_gsc exDate).rows.length = 2
    ∧ (∀ r ∈ (build_sample_df_gsc exDate).rows,
        rowVal gscSchema r "date" = .date exDate)
    ∧ fetch_daily_ga4_data ⟨true, false⟩ none exDate (fun _ => .ok []) "" =
        .ok (build_sample_df_ga4 exDate)
    ∧ (build_sample_df_ga4 exDate).cols = ga4Schema
    ∧ (build_sample_df_ga4 exDate).rows.length = 2
    ∧ (∀ r ∈ (build_sample_df_ga4 exDate).rows,
        rowVal ga4Schema r "date" = .date exDate)) :=
  ⟨Or.inl rfl,
    connector_sample_fallback ⟨false, true⟩ ⟨true, false⟩ exDate none none
      (.ok []) (fun _ => .ok []) "" (Or.inl rfl) (Or.inr rfl)⟩

/-! ### Claim C6 — live API failure yields the empty typed table -/

/-- C6: with library and credentials present, a connector whose live API
call raises returns the empty table carrying exactly the connector's
declared schema — not the 2-row sample table. -/
theorem connector_live_failure_empty (genv : GscEnv) (aenv : Ga4Env)
    (target_date : Date) (u p e1 e2 : String)
    (aapi : String → Except String (List Ga4ApiRow)) (base_url : String)
    (hg1 : genv.googleLibAvailable = true) (hg2 : genv.credentialsOk = true)
    (ha1 : aenv.ga4LibAvailable = true) (ha2 : aenv.credentialsOk = true)
    (hp : p ≠ "") (haapi : aapi "pageLocation" = .error e2) :
    fetch_daily_gsc_data genv target_date (some u) (.error e1) =
      ⟨gscSchema, []⟩
    ∧ fetch_daily_gsc_data genv target_date (some u) (.error e1) ≠
        build_sample_df_gsc target_date
    ∧ fetch_daily_ga4_data aenv (some p) target_date aapi base_url =
        .ok ⟨ga4Schema, []⟩
    ∧ fetch_daily_ga4_data aenv (some p) target_date aapi base_url ≠
        .ok (build_sample_df_ga4 target_date) := by
  have hGsc : fetch_daily_gsc_data genv target_date (some u) (.error e1) =
      ⟨gscSchema, []⟩ := by
    simp [fetch_daily_gsc_data, hg1, hg2]
  have hGa4 : fetch_daily_ga4_data aenv (some p) target_date aapi base_url =
      .ok ⟨ga4Schema, []⟩ := by
    rw [fetch_daily_ga4_data.eq_def, if_neg (by simp [ha1]), if_neg (by simp [ha2]),
      if_neg (by simp [hp]), ga4DimensionsPriority, ga4DimensionLoop, haapi]
  refine ⟨hGsc, ?_, hGa4, ?_⟩
  · rw [hGsc]
    intro hEq
    simpa [build_sample_df_gsc] using congrArg (fun t => t.rows.length) hEq
  · rw [hGa4]
    intro hEq
    have hTab : (⟨ga4Schema, []⟩ : Table) = build_sample_df_ga4 target_date :=
      Except.ok.inj hEq
    simpa [build_sample_df_ga4] using congrArg (fun t => t.rows.length) hTab

/-- Witness for C6 at a concrete failing API. -/
theorem connector_live_failure_empty_witness :
    ("properties/1" : String) ≠ "" ∧
    (fetch_daily_gsc_data ⟨true, true⟩ exDate (some "https://ejemplo.com")
        (.error "HttpError") = ⟨gscSchema, []⟩
    ∧ fetch_daily_gsc_data ⟨true, true⟩ exDate (some "https://ejemplo.com")
        (.error "HttpError") ≠ build_sample_df_gsc exDate
    ∧ fetch_daily_ga4_data ⟨true, true⟩ (some "properties/1") exDate
        (fun _ => .error "ServiceUnavailable") "" = .ok ⟨ga4Schema, []⟩
    ∧ fetch_daily_ga4_data ⟨true, true⟩ (some "properties/1") exDate
        (fun _ => .error "ServiceUnavailable") "" ≠
        .ok (build_sample_df_ga4 exDate)) :=
  ⟨by decide,
    connector_live_failure_empty ⟨true, true⟩ ⟨true, true⟩ exDate
      "https://ejemplo.com" "properties/1" "HttpError" "ServiceUnavailable"
      (fun _ => .error "ServiceUnavailable") "" rfl rfl rfl rfl (by decide) rfl⟩

/-! ### Claim C10 — missing GA4 property id raises -/

/-- C10: with the GA4 library importable and the credentials file present
but no property id (absent or empty), the fetch raises `ValueError` to the
caller instead of degrading to the sample or the empty table. -/
theorem ga4_missing_property_raises (aenv : Ga4Env)
    (property_id : Option String) (target_date : Date)
    (aapi : String → Except String (List Ga4ApiRow)) (base_url : String)
    (h1 : aenv.ga4LibAvailable = true) (h2 : aenv.credentialsOk = true)
    (hp : property_id = none ∨ property_id = some "") :
    fetch_daily_ga4_data aenv property_id target_date aapi base_url =
      .error "property_id requerido para consultar GA4" := by
  rw [fetch_daily_ga4_data.eq_def, if_neg (by simp [h1]), if_neg (by simp [h2]),
    if_pos hp]

/-- Witness for C10 at a concrete environment with no property id. -/
theorem ga4_missing_property_raises_witness :
    ((⟨true, true⟩ : Ga4Env).ga4LibAvailable = true) ∧
    fetch_daily_ga4_data ⟨true, true⟩ none exDate (fun _ => .ok []) "" =
      .error "property_id requerido para consultar GA4" :=
  ⟨rfl,
    ga4_missing_property_raises ⟨true, true⟩ none exDate (fun _ => .ok []) ""
      rfl rfl (Or.inl rfl)⟩

/-! ### Notifier (`notifications._build_summary_text`) -/

/-- Embedding of `notifications._build_summary_text`.  The environment
lookback string and the UTC timestamp the source reads at call time are
passed explicitly.  Python's f-strings are string concatenation of the
rendered pieces; `if error_message:` is true exactly for a present,
non-empty message. -/
def build_summary_text (target_date : Option Date) (gsc_rows ga4_rows : Nat)
    (success : Bool) (error_message : Option String)
    (lookback run_timestamp : String) : String :=
  let date_label :=
    match target_date with
    | some d => isoDate d
    | none => "N/D"
  let status := if success then "OK" else "ERROR"
  let lines := ["SEO Pipeline | " ++ status,
    "Objetivo: " ++ date_label ++ " (lookback=" ++ lookback ++ ")",
    "GSC filas: " ++ toString gsc_rows,
    "GA4 filas: " ++ toString ga4_rows,
    "UTC run: " ++ run_timestamp]
  let lines :=
    match error_message with
    | some msg =>
      if msg ≠ "" then
        let trimmed := if msg.length > 200 then msg.take 200 ++ "…" else msg
        lines ++ ["Error: " ++ trimmed]
      else if ga4_rows = 0 then lines ++ ["Aviso: GA4 no devolvió datos"]
      else lines
    | none =>
      if ga4_rows = 0 then lines ++ ["Aviso: GA4 no devolvió datos"]
      else lines
  String.intercalate "\n" lines

/-! ### Claim C9 — shape of the notification text -/

/-- C9 counterexample: a failed run (`success = false`) whose error message
is absent does not end with an error line — with zero analytics rows it ends
with the advisory line instead, against the claim's "if the run failed it
ends with the error message". -/
theorem summary_text_counterexample :
    build_summary_text none 5 0 false none "3" "T" =
      "SEO Pipeline | ERROR\nObjetivo: N/D (lookback=3)\nGSC filas: 5\nGA4 filas: 0\nUTC run: T\nAviso: GA4 no devolvió datos" := by
  decide

/-- C9 (amended): the text is the five fixed lines — status, target date
with lookback, one row count per source, UTC timestamp — followed by the
error line (message truncated to 200 characters plus an ellipsis when
longer) exactly when a non-empty error message is present, by the advisory
line when no (non-empty) error message is present and the analytics row
count is zero, and by nothing otherwise; the error line is keyed on the
presence of a message, not on the success flag. -/
theorem summary_text_amended (target_date : Option Date)
    (gsc_rows ga4_rows : Nat) (success : Bool)
    (error_message : Option String) (lookback run_timestamp : String) :
    (∀ e, error_message = some e → e ≠ "" →
      build_summary_text target_date gsc_rows ga4_rows success error_message
          lookback run_timestamp =
        String.intercalate "\n"
          ["SEO Pipeline | " ++ (if success then "OK" else "ERROR"),
            "Objetivo: " ++ ((target_date.map isoDate).getD "N/D") ++
              " (lookback=" ++ lookback ++ ")",
            "GSC filas: " ++ toString gsc_rows,
            "GA4 filas: " ++ toString ga4_rows,
            "UTC run: " ++ run_timestamp,
            "Error: " ++ (if e.length > 200 then e.take 200 ++ "…" else e)])
    ∧ ((error_message = none ∨ error_message = some "") → ga4_rows = 0 →
      build_summary_text target_date gsc_rows ga4_rows success error_message
          lookback run_timestamp =
        String.intercalate "\n"
          ["SEO Pipeline | " ++ (if success then "OK" else "ERROR"),
            "Objetivo: " ++ ((target_date.map isoDate).getD "N/D") ++
              " (lookback=" ++ lookback ++ ")",
            "GSC filas: " ++ toString gsc_rows,
            "GA4 filas: " ++ toString ga4_rows,
            "UTC run: " ++ run_timestamp,
            "Aviso: GA4 no devolvió datos"])
    ∧ ((error_message = none ∨ error_message = some "") → ga4_rows ≠ 0 →
      build_summary_text target_date gsc_rows ga4_rows success error_message
          lookback run_timestamp =
        String.intercalate "\n"
          ["SEO Pipeline | " ++ (if success then "OK" else "ERROR"),
            "Objetivo: " ++ ((target_date.map isoDate).getD "N/D") ++
              " (lookback=" ++ lookback ++ ")",
            "GSC filas: " ++ toString gsc_rows,
            "GA4 filas: " ++ toString ga4_rows,
            "UTC run: " ++ run_timestamp]) := by
  have hlabel : (match target_date with
      | some d => isoDate d
      | none => "N/D") = (target_date.map isoDate).getD "N/D" := by
    cases target_date <;> rfl
  refine ⟨?_, ?_, ?_⟩
  · rintro e rfl he
    rw [build_summary_text.eq_def]
    simp only [hlabel, if_pos he]
    simp
  · rintro (rfl | rfl) hz
    · rw [build_summary_text.eq_def]
      simp only [hlabel, hz, if_pos rfl]
      simp
    · rw [build_summary_text.eq_def]
      simp only [hlabel, hz, ne_eq, not_true_eq_false, if_false, if_pos rfl]
      simp
  · rintro (rfl | rfl) hz
    · rw [build_summary_text.eq_def]
      simp only [hlabel, if_neg hz]
    · rw [build_summary_text.eq_def]
      simp only [hlabel, ne_eq, not_true_eq_false, if_false, if_neg hz]

/-- Witness for the amended C9: a failed run with a short message gets the
five lines plus the untruncated error line. -/
theorem summary_text_amended_witness :
    (some "boom" : Option String) = some "boom" ∧
    build_summary_text (some ⟨2024, 1, 10⟩) 2 0 false (some "boom") "3"
        "2024-01-12 00:00:00Z" =
      "SEO Pipeline | ERROR\nObjetivo: 2024-01-10 (lookback=3)\nGSC filas: 2\nGA4 filas: 0\nUTC run: 2024-01-12 00:00:00Z\nError: boom" :=
  ⟨rfl,
    by
      have h := (summary_text_amended (some ⟨2024, 1, 10⟩) 2 0 false
        (some "boom") "3" "2024-01-12 00:00:00Z").1 "boom" rfl (by decide)
      rw [h]
      decide⟩

/-! ### Orchestrator (`data_pipeline.run_pipeline`) -/

/-- Arguments of one `send_pipeline_summary_notification` call. -/
structure Notification where
  target_date : Option Date
  gsc_rows : Nat
  ga4_rows : Nat
  success : Bool
  error_message : Option String
deriving DecidableEq

/-- The fallible steps of the `try` block, abstracted: the two fetches
(which may raise — e.g. the GA4 `ValueError`) and the two sheet writes
(which may raise inside the client). -/
structure StepInputs where
  fetchGsc : Except String Table
  fetchGa4 : Except String Table
  writeGsc : Table → Except String Unit
  writeGa4 : Table → Except String Unit

/-- Normalizer step as the orchestrator sees it: a `None`-free table or the
exception message of the raise it turns into. -/
def prepareE (df : Table) (dc : String) : Except String Table :=
  match prepare_dataframe df dc with
  | some t => .ok t
  | none => .error "KeyError"

/-- Body of the `try` block of `run_pipeline` (lines 103–136): fetch and
normalize search data, fetch and normalize analytics data, write each
non-empty table; returns the row counters as assigned so far plus the error
message of the first raise, if any (`None` on success). -/
def runBody (i : StepInputs) : Nat × Nat × Option String :=
  match i.fetchGsc with
  | .error e => (0, 0, some e)
  | .ok gsc =>
    match prepareE gsc "date" with
    | .error e => (0, 0, some e)
    | .ok gsc_df =>
      let gsc_rows := gsc_df.rows.length
      match i.fetchGa4 with
      | .error e => (gsc_rows, 0, some e)
      | .ok ga4 =>
        match prepareE ga4 "date" with
        | .error e => (gsc_rows, 0, some e)
        | .ok ga4_df =>
          let ga4_rows := ga4_df.rows.length
          match (if gsc_rows > 0 then i.writeGsc gsc_df else .ok ()) with
          | .error e => (gsc_rows, ga4_rows, some e)
          | .ok _ =>
            match (if ga4_rows > 0 then i.writeGa4 ga4_df else .ok ()) with
            | .error e => (gsc_rows, ga4_rows, some e)
            | .ok _ => (gsc_rows, ga4_rows, none)

/-- Observable outcome of one `run_pipeline` call: the notifier invocations
and the returned/raised result. -/
structure RunOutcome where
  notifications : List Notification
  result : Except String Unit

/-- Embedding of `data_pipeline.run_pipeline`.  A missing spreadsheet id
raises before the `try`, so no notification happens.  Otherwise the body
runs, the notifier is invoked exactly once in the `finally` block — its own
failure is caught and logged (lines 149–150), so the `notify` result is
discarded — and the body's exception, if any, is re-raised. -/
def run_pipeline (spreadsheet_id : Option String) (target_date : Date)
    (i : StepInputs) (notify : Notification → Except String Unit) :
    RunOutcome :=
  match spreadsheet_id with
  | none =>
    ⟨[], .error "Se requiere SEO_MASTER_SPREADSHEET_ID para actualizar Google Sheets"⟩
  | some _ =>
    let res := runBody i
    let notif : Notification :=
      ⟨some target_date, res.1, res.2.1, res.2.2.isNone, res.2.2⟩
    let _ := notify notif
    ⟨[notif], match res.2.2 with | some e => .error e | none => .ok ()⟩

/-! ### Claim C8 — failures still notify, then re-raise -/

/-- C8: whenever the body (fetch, normalize or write) raises with message
`e`, the notifier is still invoked exactly once, with `success = false` and
`e` as the error text, and the exception is re-raised to the caller; this
holds for every notifier function, including failing ones, whose result is
swallowed. -/
theorem orchestrator_failure_notifies (sid : String) (target_date : Date)
    (i : StepInputs) (notify : Notification → Except String Unit)
    (g a : Nat) (e : String) (h : runBody i = (g, a, some e)) :
    (run_pipeline (some sid) target_date i notify).notifications =
      [⟨some target_date, g, a, false, some e⟩]
    ∧ (run_pipeline (some sid) target_date i notify).result = .error e := by
  simp [run_pipeline, h]

/-- Witness for C8: the search fetch raises, every notifier is still called
once with the failure summary, and the error is re-raised. -/
theorem orchestrator_failure_notifies_witness :
    runBody ⟨.error "boom", .ok ⟨[], []⟩, fun _ => .ok (), fun _ => .ok ()⟩ =
      (0, 0, some "boom") ∧
    ((run_pipeline (some "sheet-id") exDate
        ⟨.error "boom", .ok ⟨[], []⟩, fun _ => .ok (), fun _ => .ok ()⟩
        (fun _ => .error "telegram down")).notifications =
      [⟨some exDate, 0, 0, false, some "boom"⟩]
    ∧ (run_pipeline (some "sheet-id") exDate
        ⟨.error "boom", .ok ⟨[], []⟩, fun _ => .ok (), fun _ => .ok ()⟩
        (fun _ => .error "telegram down")).result = .error "boom") :=
  ⟨rfl,
    orchestrator_failure_notifies "sheet-id" exDate
      ⟨.error "boom", .ok ⟨[], []⟩, fun _ => .ok (), fun _ => .ok ()⟩
      (fun _ => .error "telegram down") 0 0 "boom" rfl⟩

end SeoPipeline
